import Mathlib

/-!
Verification of the push-notification integration layer
(`src/libs/Notification/PushNotification`): payload decoding, the
event/type dispatch table, registration, the Onyx update applier, the
background-processing bridge, report navigation and the foreground
display predicate.

JavaScript promises are modelled by explicit result values and effect
traces; external library calls (`atob`, `pako.inflate`, `JSON.parse`,
the Airship SDK, the Onyx store, the navigation collaborator) are
modelled as environment records so that every theorem quantifies over
their behaviour.  A library call that can throw is modelled as an
`Option`-returning function, `none` standing for a thrown exception.
-/

/-- An opaque Onyx update entry, identified by its raw serialized form. -/
abbrev OnyxUpdate := String

/-- JavaScript truthiness of an optional number: `undefined` and `0` are falsy. -/
def jsFalsyNum : Option Int → Bool
  | none => true
  | some n => n == 0

/-- JavaScript truthiness of an optional array: only `undefined` is falsy
(an array, even empty, is always truthy). -/
def jsFalsyArr : Option (List OnyxUpdate) → Bool
  | none => true
  | some _ => false

/-- JavaScript `String(x)` on an optional number (`String(undefined)` is
the literal text `undefined`). -/
def jsNumToString : Option Int → String
  | none => "undefined"
  | some n => toString n

/-- Decoded notification data (`PushNotificationData`).  Every field is
optional because the record comes from parsed JSON; `type` is kept as a
raw string exactly as parsed. -/
structure PushNotificationData where
  type : Option String
  reportID : Option Int
  lastUpdateID : Option Int
  previousUpdateID : Option Int
  hasPendingOnyxUpdates : Option Bool
  onyxData : Option (List OnyxUpdate)
deriving DecidableEq

/-- The raw `extras.payload` value of a push notification: either an
already-structured object or a string needing decoding. -/
inductive RawPayload where
  | obj (data : PushNotificationData)
  | str (s : String)
deriving DecidableEq

/-- The extras mapping of a push payload. -/
structure Extras where
  payload : Option RawPayload
deriving DecidableEq

/-- A provider-delivered push payload envelope (only the fields the code
reads for behaviour; the alert/title/subtitle fields are logging-only). -/
structure PushPayload where
  notificationId : Option String
  extras : Extras
deriving DecidableEq

/-- Environment of string-decoding library calls used by
`parsePushNotificationPayload`.  `atob` base64-decodes to a binary
string, `inflate` gzip-decompresses a binary string to text (the
`Uint8Array.from` conversion from binary string to bytes is bijective
and folded into it), `jsonParse` parses JSON text.  `none` models a
thrown exception. -/
structure DecodeEnv where
  atob : String → Option String
  inflate : String → Option String
  jsonParse : String → Option PushNotificationData

/-- The two-byte gzip magic number, as the binary string the code
compares against (`GZIP_MAGIC_NUMBER`). -/
def GZIP_MAGIC_NUMBER : String := "\x1f\x8b"

/-- The gzip branch of the decoder: base64-decode, require the gzip
magic prefix (else throw, caught by the surrounding try), decompress,
JSON-parse.  Any `none` models an exception caught by the caller. -/
def tryGzipPath (env : DecodeEnv) (payload : String) : Option PushNotificationData :=
  match env.atob payload with
  | none => none
  | some binaryStringPayload =>
    if binaryStringPayload.startsWith GZIP_MAGIC_NUMBER then
      match env.inflate binaryStringPayload with
      | none => none
      | some decompressed => env.jsonParse decompressed
    else none

/-- Source function `parsePushNotificationPayload`: `undefined` yields no data; an
object payload is returned unchanged; a string payload tries the gzip
path and, on any failure there, plain JSON parsing of the original
string; if both fail the result is no data. -/
def parsePushNotificationPayload (env : DecodeEnv) :
    Option RawPayload → Option PushNotificationData
  | none => none
  | some (RawPayload.obj data) => some data
  | some (RawPayload.str payload) =>
    match tryGzipPath env payload with
    | some jsonObject => some jsonObject
    | none =>
      match env.jsonParse payload with
      | some jsonObject => some jsonObject
      | none => none

/-- First successful outcome of an ordered sequence of attempts. -/
def firstSuccess : List (Option PushNotificationData) → Option PushNotificationData
  | [] => none
  | attempt :: rest =>
    match attempt with
    | some v => some v
    | none => firstSuccess rest

/-- Reference gzip attempt, following the specification text: base64
decode the string; only if the decoded bytes begin with the two-byte
gzip magic number, gzip-decompress and JSON-parse; any failure in the
path is a failure of the attempt, without raising. -/
def specGzipAttempt (env : DecodeEnv) (s : String) : Option PushNotificationData :=
  (env.atob s).bind fun bytes =>
    if bytes.startsWith GZIP_MAGIC_NUMBER then (env.inflate bytes).bind env.jsonParse
    else none

/-- Reference plain-JSON attempt: parse the original string directly. -/
def specPlainAttempt (env : DecodeEnv) (s : String) : Option PushNotificationData :=
  env.jsonParse s

/-- Reference decoder written from the specification words: `undefined`
yields no data; a non-string is returned unchanged; a string takes the
first success of the ordered attempts (gzip path, then plain JSON);
if both fail the result is no data. -/
def referenceDecode (env : DecodeEnv) : Option RawPayload → Option PushNotificationData
  | none => none
  | some (RawPayload.obj data) => some data
  | some (RawPayload.str s) => firstSuccess [specGzipAttempt env s, specPlainAttempt env s]

/-- The two Airship SDK event kinds the dispatch table is keyed by. -/
inductive EventType where
  | pushReceived
  | notificationResponse
deriving DecidableEq

/-- The closed set of notification types handlers are bound for
(`NotificationType.REPORT_COMMENT` and friends). -/
inductive NotificationTypes where
  | reportComment
  | reportAction
  | transaction
deriving DecidableEq

/-- The string key under which a notification type is stored in the
action map object. -/
def NotificationTypes.key : NotificationTypes → String
  | .reportComment => "reportComment"
  | .reportAction => "reportAction"
  | .transaction => "transaction"

/-- Lookup of a raw string key in an object keyed by the closed set of
notification-type strings: JavaScript `actionMap[data.type]`. -/
def keyToType (t : String) : Option NotificationTypes :=
  if t = "reportComment" then some NotificationTypes.reportComment
  else if t = "reportAction" then some NotificationTypes.reportAction
  else if t = "transaction" then some NotificationTypes.transaction
  else none

/-- Source table `notificationEventActionMap`: for each event kind, a partial map
from notification type to the single bound handler.  A handler takes
the decoded data and returns its completion promise, of abstract
type `P`. -/
def DispatchTable (P : Type) := EventType → NotificationTypes → Option (PushNotificationData → P)

namespace Dispatch

/-- Source function `bind`: install `callback` for `(triggerEvent, notificationType)`,
overwriting any previous handler for that pair (the inner action map is
looked up, defaulted to empty, mutated at one key and stored back). -/
def bind {P : Type} (table : DispatchTable P) (triggerEvent : EventType)
    (notificationType : NotificationTypes) (callback : PushNotificationData → P) :
    DispatchTable P :=
  fun e =>
    if e = triggerEvent then
      fun t => if t = notificationType then some callback else table triggerEvent t
    else table e

end Dispatch

/-- One `bind` call, as data: the arguments of `bind`. -/
structure Binding (P : Type) where
  event : EventType
  ntype : NotificationTypes
  callback : PushNotificationData → P

/-- Apply a sequence of `bind` calls in order. -/
def bindAll {P : Type} (table : DispatchTable P) (bs : List (Binding P)) : DispatchTable P :=
  bs.foldl (fun tb b => Dispatch.bind tb b.event b.ntype b.callback) table

/-- The handler installed by the last bind call in `bs` matching the
pair `(e, nt)`, if any. -/
def lastBound {P : Type} (bs : List (Binding P)) (e : EventType) (nt : NotificationTypes) :
    Option (PushNotificationData → P) :=
  bs.foldl (fun acc b => if b.event = e ∧ b.ntype = nt then some b.callback else acc) none

/-- Source function `pushNotificationEventCallback`: decode the raw payload, require a
truthy `type`, look the handler up under `(eventType, data.type)`, and
return the handler's own promise; on any missing piece return
immediately with no handler invoked (`none`). -/
def pushNotificationEventCallback {P : Type} (table : DispatchTable P) (env : DecodeEnv)
    (eventType : EventType) (notification : PushPayload) : Option P :=
  let actionMap := table eventType
  match parsePushNotificationPayload env notification.extras.payload with
  | none => none
  | some data =>
    match data.type with
    | none => none
    | some t =>
      if t.isEmpty then none
      else
        match keyToType t with
        | none => none
        | some nt =>
          match actionMap nt with
          | none => none
          | some action => some (action data)

/-- A decode environment in which every library call throws; used to
evaluate the model on concrete inputs (an object payload never reaches
these calls). -/
def trivialDecodeEnv : DecodeEnv := ⟨fun _ => none, fun _ => none, fun _ => none⟩

/-- A concrete decoded transaction record. -/
def sampleTransactionData : PushNotificationData :=
  ⟨some "transaction", some 42, none, none, none, none⟩

/-- A concrete push payload whose extras carry `sampleTransactionData`
as an already-structured object. -/
def samplePayloadObj : PushPayload := ⟨none, ⟨some (RawPayload.obj sampleTransactionData)⟩⟩

/-- A concrete push payload with no `extras.payload` value. -/
def samplePayloadNone : PushPayload := ⟨none, ⟨none⟩⟩

/-- The empty dispatch table (no handler bound anywhere). -/
def emptyTable : DispatchTable Nat := fun _ _ => none

/-- Two successive bind calls for the same `(pushReceived, transaction)`
pair, installing distinguishable handlers. -/
def rebindList : List (Binding Nat) :=
  [⟨EventType.pushReceived, NotificationTypes.transaction, fun _ => 1⟩,
   ⟨EventType.pushReceived, NotificationTypes.transaction, fun _ => 2⟩]

/-- The constant `CONST.ONYX_UPDATE_TYPES.AIRSHIP`, the source tag of an
update-request built from a push notification (external constant; the
specification calls it `AIRSHIP_SOURCE`). -/
def ONYX_UPDATE_TYPES_AIRSHIP : String := "airship"

/-- The constant `CONST.DEFAULT_NUMBER_ID`, the fallback used when the persisted
last-applied update ID is absent (external constant, value 0). -/
def DEFAULT_NUMBER_ID : Int := 0

/-- One update batch inside an update-request (`updates` entry with an
`eventType`, only needed for Pusher events, and the inline data). -/
structure UpdateBatch where
  eventType : String
  data : List OnyxUpdate
deriving DecidableEq

/-- The update-request record (`OnyxUpdatesFromServer`) handed to the
reliable-update-application collaborator. -/
structure OnyxUpdatesFromServer where
  type : String
  lastUpdateID : Int
  previousUpdateID : Option Int
  shouldFetchPendingUpdates : Option Bool
  updates : List UpdateBatch
deriving DecidableEq

/-- Environment of the update applier: the persisted
`lastUpdateIDAppliedToClient` value (`none` when the key is absent) and
the settle outcome of `applyOnyxUpdatesReliably` for a given request
(`true` = the collaborator's promise resolves, `false` = it rejects). -/
structure ApplyEnv where
  lastUpdateIDAppliedToClient : Option Int
  applyResolves : OnyxUpdatesFromServer → Int → Bool

/-- Observable steps of one `applyOnyxData` call, in order. -/
inductive ApplyEffect where
  | readLastUpdateIDAppliedToClient
  | applyOnyxUpdatesReliably (updates : OnyxUpdatesFromServer) (shouldRunSync : Bool)
      (clientLastUpdateID : Int)
  | finishBackgroundProcessing (context : String)
deriving DecidableEq

/-- Whether an effect is the invocation of the safely-finish
background-processing step. -/
def ApplyEffect.isFinish : ApplyEffect → Bool
  | .finishBackgroundProcessing _ => true
  | _ => false

/-- The tail of `applyOnyxData` after an update-request has been
built: read the persisted last-applied ID, forward the request to
`applyOnyxUpdatesReliably` with `shouldRunSync` set, then finish
background processing once — in the success continuation when the
collaborator resolves, in the catch handler when it rejects. -/
def applyUpdatesAndFinish (env : ApplyEnv) (updates : OnyxUpdatesFromServer) :
    List ApplyEffect :=
  ApplyEffect.readLastUpdateIDAppliedToClient ::
  ApplyEffect.applyOnyxUpdatesReliably updates true
    (env.lastUpdateIDAppliedToClient.getD DEFAULT_NUMBER_ID) ::
  (if env.applyResolves updates (env.lastUpdateIDAppliedToClient.getD DEFAULT_NUMBER_ID) then
    [ApplyEffect.finishBackgroundProcessing "success"]
  else
    [ApplyEffect.finishBackgroundProcessing "error"])

/-- Source function `applyOnyxData`: build the update-request for the pending-updates
or inline-data path (abandoning with an immediately resolved promise
and no effects when required data is missing, where a missing number is
a JS-falsy one), then run `applyUpdatesAndFinish`. -/
def applyOnyxData (env : ApplyEnv) (d : PushNotificationData) : List ApplyEffect :=
  if d.hasPendingOnyxUpdates.getD false then
    if jsFalsyNum d.lastUpdateID then []
    else
      applyUpdatesAndFinish env
        { type := ONYX_UPDATE_TYPES_AIRSHIP
          lastUpdateID := d.lastUpdateID.getD 0
          previousUpdateID := none
          shouldFetchPendingUpdates := some true
          updates := [] }
  else
    if jsFalsyNum d.lastUpdateID || jsFalsyArr d.onyxData || jsFalsyNum d.previousUpdateID then
      []
    else
      applyUpdatesAndFinish env
        { type := ONYX_UPDATE_TYPES_AIRSHIP
          lastUpdateID := d.lastUpdateID.getD 0
          previousUpdateID := d.previousUpdateID
          shouldFetchPendingUpdates := none
          updates := [⟨"", d.onyxData.getD []⟩] }

/-- The missing-required-data test of `applyOnyxData`, exactly as the
code branches on it (per path). -/
def updateApplierDataMissing (d : PushNotificationData) : Bool :=
  if d.hasPendingOnyxUpdates.getD false then jsFalsyNum d.lastUpdateID
  else jsFalsyNum d.lastUpdateID || jsFalsyArr d.onyxData || jsFalsyNum d.previousUpdateID

/-- A concrete applier environment whose collaborator always resolves. -/
def resolvingApplyEnv : ApplyEnv := ⟨some 5, fun _ _ => true⟩

/-- A concrete pending-updates input with no `lastUpdateID`. -/
def pendingNoLastUpdateIDData : PushNotificationData :=
  ⟨some "reportComment", some 42, none, none, some true, none⟩

/-- A concrete inline-path input with all required fields present. -/
def completeInlineData : PushNotificationData :=
  ⟨some "reportComment", some 7, some 100, some 99, none, some []⟩

/-- The Airship SDK calls `register` can issue, in order. -/
inductive RegisterCall where
  | getNamedUserId
  | enableUserNotifications
  | identify (id : String)
  | getNotificationStatus
deriving DecidableEq

/-- Source function `register`: read the SDK's registered named-user identity (the read
result is an environment input; `Except.error` models a rejected read,
caught and logged).  If it already equals the desired notification ID
as a string, stop; otherwise request user-notification permission,
identify the device under the stringified ID without waiting for the
permission outcome, and query the notification status. -/
def register (currentUserIdResult : Except Unit (Option String)) (notificationID : Int) :
    List RegisterCall :=
  RegisterCall.getNamedUserId ::
  match currentUserIdResult with
  | Except.error _ => []
  | Except.ok userID =>
    if userID = some (toString notificationID) then []
    else
      [RegisterCall.enableUserNotifications,
       RegisterCall.identify (toString notificationID),
       RegisterCall.getNotificationStatus]

/-- The native `PushNotificationBridge` module: may be absent entirely,
and when present may lack the `finishBackgroundProcessing` function.
The function returns a value of abstract promise type `P`. -/
structure PushNotificationBridge (P : Type) where
  finishBackgroundProcessing : Option (Unit → P)

/-- Result of the safely-finish step: either the bridge function's own
promise, or a successfully resolved no-op. -/
inductive FinishOutcome (P : Type) where
  | bridgeCall (result : P)
  | resolvedNoop

/-- Source function `safelyFinishBackgroundProcessing`: call the bridge finish function
when the bridge exists and exposes it; otherwise log and resolve as a
no-op without throwing. -/
def safelyFinishBackgroundProcessing {P : Type}
    (bridge : Option (PushNotificationBridge P)) : FinishOutcome P :=
  match bridge with
  | some b =>
    match b.finishBackgroundProcessing with
    | some finish => FinishOutcome.bridgeCall (finish ())
    | none => FinishOutcome.resolvedNoop
  | none => FinishOutcome.resolvedNoop

/-- The constant `ROUTES.REPORT`, the route segment of a report screen. -/
def ROUTES_REPORT : String := "r"

/-- The constant `ROUTES.TRANSITION_BETWEEN_APPS`, the transition placeholder route
(external constant; only its occurrence in the active route matters). -/
def ROUTES_TRANSITION_BETWEEN_APPS : String := "transition"

/-- The helper `ROUTES.REPORT_WITH_ID.getRoute`: the full route of a report
screen, with an optional back-to target. -/
def reportWithIdRoute (reportID : String) (backTo : Option String) : String :=
  match backTo with
  | none => "r/" ++ reportID
  | some b => "r/" ++ reportID ++ "?backTo=" ++ b

/-- JavaScript `String.prototype.includes`. -/
def jsIncludes (s pattern : String) : Bool := (s.splitOn pattern).length != 1

/-- State of the navigation collaborator and hybrid-app flags read by
`navigateToReport`, plus whether one of the guarded navigation steps
throws (the catch only logs, so a single flag captures it). -/
structure NavEnv where
  isSingleNewDotEntry : Option Bool
  isHybridApp : Bool
  activeRoute : String
  isActiveRoute : String → Bool
  navigationThrows : Bool

/-- Observable steps of the deferred navigation work. -/
inductive NavEffect where
  | waitForProtectedRoutes
  | closeModal
  | goBack
  | navigate (route : String)
  | updateLastVisitedPath (path : String)
  | logAlert
deriving DecidableEq

/-- Settled state of a JavaScript promise. -/
inductive PromiseState where
  | resolved
  | rejected (message : String)
deriving DecidableEq

/-- The guarded body run inside the modal-close callback: skip when the
single-new-dot-entry flow is active; otherwise pop the transition
screen on hybrid app, go back when a different report screen is
active, navigate to the target report computing a back-to target only
when not already there, and record the last visited path.  A thrown
exception is caught and logged. -/
def navigateToReportSteps (env : NavEnv) (reportID : Option Int) : List NavEffect :=
  if env.isSingleNewDotEntry.getD false then []
  else if env.navigationThrows then [NavEffect.logAlert]
  else
    let fullTargetRoute := reportWithIdRoute (jsNumToString reportID) none
    let backTo := if env.isActiveRoute fullTargetRoute then none else some env.activeRoute
    (if env.isHybridApp && jsIncludes env.activeRoute ROUTES_TRANSITION_BETWEEN_APPS then
      [NavEffect.goBack]
    else []) ++
    (if ((env.activeRoute.drop 1).take 1 == ROUTES_REPORT) &&
        !(env.isActiveRoute ("r/" ++ jsNumToString reportID)) then
      [NavEffect.goBack]
    else []) ++
    [NavEffect.navigate (reportWithIdRoute (jsNumToString reportID) backTo),
     NavEffect.updateLastVisitedPath fullTargetRoute]

/-- Source function `navigateToReport`: kick off the routes-ready wait, the modal close
and the guarded navigation steps as deferred background work, and
return an already-resolved promise immediately; the deferred work's
outcome is never propagated into the returned promise. -/
def navigateToReport (env : NavEnv) (data : PushNotificationData) :
    PromiseState × List NavEffect :=
  (PromiseState.resolved,
   NavEffect.waitForProtectedRoutes :: NavEffect.closeModal ::
     navigateToReportSteps env data.reportID)

/-- A report action, identified opaquely. -/
abbrev ReportAction := String

/-- Environment of the foreground display predicate: the external
report-action helpers it delegates to for non-transaction types. -/
structure ShowEnv where
  getLatestReportActionFromOnyxData : Option (List OnyxUpdate) → Option ReportAction
  shouldShowReportActionNotification : String → Option ReportAction → Bool → Bool

/-- Source function `shouldShowPushNotification`: show when the payload fails to
decode; show unconditionally for `transaction` notifications; otherwise
delegate to the report-action display predicate. -/
def shouldShowPushNotification (decEnv : DecodeEnv) (env : ShowEnv)
    (pushPayload : PushPayload) : Bool :=
  match parsePushNotificationPayload decEnv pushPayload.extras.payload with
  | none => true
  | some data =>
    if data.type = some "transaction" then true
    else
      env.shouldShowReportActionNotification (jsNumToString data.reportID)
        (env.getLatestReportActionFromOnyxData data.onyxData) true

/-- A concrete show environment that would hide every non-transaction
notification. -/
def hidingShowEnv : ShowEnv := ⟨fun _ => none, fun _ _ _ => false⟩

lemma tryGzipPath_eq_specGzipAttempt (env : DecodeEnv) (s : String) :
    tryGzipPath env s = specGzipAttempt env s := by
  unfold tryGzipPath specGzipAttempt
  cases env.atob s with
  | none => rfl
  | some bytes =>
    simp only [Option.bind_some]
    by_cases h : bytes.startsWith GZIP_MAGIC_NUMBER
    · simp only [h, if_true]
      cases h2 : env.inflate bytes <;> simp [h, h2]
    · simp [h]

/-- Claim C3: the payload decoder equals the reference definition for
every input: `undefined` yields no data; a non-string is returned
unchanged; a string is base64-decoded and, only if the decoded bytes
begin with the gzip magic number 0x1F 0x8B, gzip-decompressed and
JSON-parsed, otherwise (on any failure in that path, without raising)
the original string is parsed directly as JSON; if both string paths
fail the result is no data. -/
theorem parsePushNotificationPayload_eq_referenceDecode (env : DecodeEnv)
    (payload : Option RawPayload) :
    parsePushNotificationPayload env payload = referenceDecode env payload := by
  cases payload with
  | none => rfl
  | some raw =>
    cases raw with
    | obj data => rfl
    | str s =>
      show (match tryGzipPath env s with
            | some jsonObject => some jsonObject
            | none =>
              match env.jsonParse s with
              | some jsonObject => some jsonObject
              | none => none) =
          firstSuccess [specGzipAttempt env s, specPlainAttempt env s]
      rw [tryGzipPath_eq_specGzipAttempt]
      cases specGzipAttempt env s with
      | some v => rfl
      | none =>
        show (match env.jsonParse s with
              | some jsonObject => some jsonObject
              | none => none) = firstSuccess [specPlainAttempt env s]
        cases h : env.jsonParse s <;> simp [firstSuccess, specPlainAttempt, h]

lemma keyToType_isEmpty_false {t : String} {nt : NotificationTypes}
    (h : keyToType t = some nt) : t.isEmpty = false := by
  unfold keyToType at h
  by_cases h1 : t = "reportComment"
  · subst h1; rfl
  · by_cases h2 : t = "reportAction"
    · subst h2; rfl
    · by_cases h3 : t = "transaction"
      · subst h3; rfl
      · simp [h1, h2, h3] at h

lemma keyToType_key (nt : NotificationTypes) : keyToType nt.key = some nt := by
  cases nt <;> rfl

lemma pushNotificationEventCallback_invokes {P : Type} (table : DispatchTable P)
    (env : DecodeEnv) (eventType : EventType) (notification : PushPayload)
    (data : PushNotificationData) (t : String) (nt : NotificationTypes)
    (action : PushNotificationData → P)
    (hparse : parsePushNotificationPayload env notification.extras.payload = some data)
    (htype : data.type = some t) (hkey : keyToType t = some nt)
    (haction : table eventType nt = some action) :
    pushNotificationEventCallback table env eventType notification = some (action data) := by
  simp [pushNotificationEventCallback, hparse, htype, keyToType_isEmpty_false hkey, hkey,
    haction]

lemma lastBound_loop {P : Type} (bs : List (Binding P)) (e : EventType)
    (nt : NotificationTypes) (acc : Option (PushNotificationData → P)) :
    bs.foldl (fun a b => if b.event = e ∧ b.ntype = nt then some b.callback else a) acc =
      match lastBound bs e nt with
      | some cb => some cb
      | none => acc := by
  induction bs generalizing acc with
  | nil => simp [lastBound]
  | cons b bs ih =>
    have hcons : lastBound (b :: bs) e nt =
        List.foldl (fun a b => if b.event = e ∧ b.ntype = nt then some b.callback else a)
          (if b.event = e ∧ b.ntype = nt then some b.callback else none) bs := rfl
    simp only [List.foldl_cons]
    rw [ih, hcons, ih]
    cases lastBound bs e nt with
    | some cb => rfl
    | none => by_cases hb : b.event = e ∧ b.ntype = nt <;> simp [hb]

lemma lastBound_cons {P : Type} (b : Binding P) (bs : List (Binding P)) (e : EventType)
    (nt : NotificationTypes) :
    lastBound (b :: bs) e nt =
      match lastBound bs e nt with
      | some cb => some cb
      | none => if b.event = e ∧ b.ntype = nt then some b.callback else none := by
  unfold lastBound
  simp only [List.foldl_cons]
  exact lastBound_loop bs e nt _

lemma bindAll_lookup {P : Type} (table : DispatchTable P) (bs : List (Binding P))
    (e : EventType) (nt : NotificationTypes) :
    bindAll table bs e nt =
      match lastBound bs e nt with
      | some cb => some cb
      | none => table e nt := by
  induction bs generalizing table with
  | nil => simp [bindAll, lastBound]
  | cons b bs ih =>
    show bindAll (Dispatch.bind table b.event b.ntype b.callback) bs e nt = _
    rw [ih, lastBound_cons]
    cases hl : lastBound bs e nt with
    | some cb => rfl
    | none =>
      by_cases hb : b.event = e ∧ b.ntype = nt
      · obtain ⟨he, hn⟩ := hb
        subst he; subst hn
        simp [Dispatch.bind]
      · simp only [hb, if_false]
        show Dispatch.bind table b.event b.ntype b.callback e nt = table e nt
        unfold Dispatch.bind
        by_cases he : e = b.event
        · subst he
          have hn : ¬ nt = b.ntype := fun hnn => hb ⟨rfl, hnn.symm⟩
          simp [hn]
        · simp [he]

/-- Claim C1: for every event kind and raw payload, when the payload
decoder yields data containing a type and a handler is bound for the
pair of the event kind and that type, dispatch invokes that handler
with exactly the decoded data record and returns the handler's own
completion signal, not a fresh or swallowed one. -/
theorem dispatch_returns_handler_promise {P : Type} (table : DispatchTable P)
    (env : DecodeEnv) (eventType : EventType) (notification : PushPayload)
    (data : PushNotificationData) (t : String) (nt : NotificationTypes)
    (action : PushNotificationData → P)
    (hparse : parsePushNotificationPayload env notification.extras.payload = some data)
    (htype : data.type = some t) (hkey : keyToType t = some nt)
    (haction : table eventType nt = some action) :
    pushNotificationEventCallback table env eventType notification = some (action data) :=
  pushNotificationEventCallback_invokes table env eventType notification data t nt action
    hparse htype hkey haction

/-- Witness for C1: binding a handler for `(pushReceived, transaction)`
and delivering an object payload of type `transaction` returns exactly
that handler's promise. -/
theorem dispatch_returns_handler_promise_witness :
    pushNotificationEventCallback
      (Dispatch.bind emptyTable EventType.pushReceived NotificationTypes.transaction
        (fun _ => 7))
      trivialDecodeEnv EventType.pushReceived samplePayloadObj = some 7 :=
  dispatch_returns_handler_promise
    (Dispatch.bind emptyTable EventType.pushReceived NotificationTypes.transaction
      (fun _ => 7))
    trivialDecodeEnv EventType.pushReceived samplePayloadObj sampleTransactionData
    "transaction" NotificationTypes.transaction (fun _ => 7) rfl rfl rfl rfl

/-- Claim C4: if decoding yields no data, or the decoded data lacks a
type, or no handler is bound for the pair of the event kind and the
decoded type, dispatch terminates silently, returning immediately
without invoking any handler and without raising. -/
theorem dispatch_silent_noop {P : Type} (table : DispatchTable P) (env : DecodeEnv)
    (eventType : EventType) (notification : PushPayload)
    (h : parsePushNotificationPayload env notification.extras.payload = none
       ∨ (∃ data, parsePushNotificationPayload env notification.extras.payload = some data ∧
            data.type = none)
       ∨ (∃ data t, parsePushNotificationPayload env notification.extras.payload = some data ∧
            data.type = some t ∧
            ∀ nt, keyToType t = some nt → table eventType nt = none)) :
    pushNotificationEventCallback table env eventType notification = none := by
  rcases h with h | ⟨data, hp, ht⟩ | ⟨data, t, hp, ht, hnone⟩
  · simp [pushNotificationEventCallback, h]
  · simp [pushNotificationEventCallback, hp, ht]
  · by_cases he : t.isEmpty
    · simp [pushNotificationEventCallback, hp, ht, he]
    · cases hk : keyToType t with
      | none => simp [pushNotificationEventCallback, hp, ht, he, hk]
      | some nt => simp [pushNotificationEventCallback, hp, ht, he, hk, hnone nt hk]

/-- Witness for C4: a payload with no `extras.payload` value makes
dispatch return immediately with no handler invoked. -/
theorem dispatch_silent_noop_witness :
    pushNotificationEventCallback emptyTable trivialDecodeEnv EventType.pushReceived
      samplePayloadNone = none :=
  dispatch_silent_noop emptyTable trivialDecodeEnv EventType.pushReceived samplePayloadNone
    (Or.inl rfl)

/-- Claim C6: `bind` installs the given handler for the pair,
overwriting any previously bound handler and never failing; after any
sequence of bind calls the table holds at most one handler per pair,
namely the last one bound (or the original entry when the sequence
never touches the pair); and dispatch only ever invokes that latest
handler. -/
theorem bind_overwrites_and_last_wins {P : Type} (table : DispatchTable P)
    (bs : List (Binding P)) (e : EventType) (nt : NotificationTypes) :
    (∀ cb, Dispatch.bind table e nt cb e nt = some cb)
  ∧ (bindAll table bs e nt =
      match lastBound bs e nt with
      | some cb => some cb
      | none => table e nt)
  ∧ (∀ (env : DecodeEnv) (notification : PushPayload) (data : PushNotificationData)
        (cb : PushNotificationData → P),
        lastBound bs e nt = some cb →
        parsePushNotificationPayload env notification.extras.payload = some data →
        data.type = some nt.key →
        pushNotificationEventCallback (bindAll table bs) env e notification =
          some (cb data)) := by
  refine ⟨fun cb => by simp [Dispatch.bind], bindAll_lookup table bs e nt, ?_⟩
  intro env notification data cb hlast hparse htype
  have hentry : bindAll table bs e nt = some cb := by
    rw [bindAll_lookup, hlast]
  exact pushNotificationEventCallback_invokes (bindAll table bs) env e notification data
    nt.key nt cb hparse htype (keyToType_key nt) hentry

/-- Witness for C6: after binding two handlers in succession to the
same `(pushReceived, transaction)` pair, dispatch invokes only the
second one. -/
theorem bind_overwrites_and_last_wins_witness :
    pushNotificationEventCallback (bindAll emptyTable rebindList) trivialDecodeEnv
      EventType.pushReceived samplePayloadObj = some 2 :=
  (bind_overwrites_and_last_wins emptyTable rebindList EventType.pushReceived
      NotificationTypes.transaction).2.2
    trivialDecodeEnv samplePayloadObj sampleTransactionData (fun _ => 2) rfl rfl rfl

lemma applyUpdatesAndFinish_one_finish (env : ApplyEnv) (u : OnyxUpdatesFromServer) :
    (applyUpdatesAndFinish env u).countP ApplyEffect.isFinish = 1 := by
  unfold applyUpdatesAndFinish
  cases env.applyResolves u (env.lastUpdateIDAppliedToClient.getD DEFAULT_NUMBER_ID) <;>
    simp [List.countP_cons, ApplyEffect.isFinish]

lemma applyOnyxData_missing_eq_nil (env : ApplyEnv) (d : PushNotificationData)
    (h : updateApplierDataMissing d = true) : applyOnyxData env d = [] := by
  unfold updateApplierDataMissing at h
  unfold applyOnyxData
  by_cases hp : d.hasPendingOnyxUpdates.getD false
  · rw [if_pos hp] at h
    simp [hp, h]
  · rw [if_neg hp] at h
    simp [hp, h]

/-- Counterexample to claim C2 as stated: on the pending-updates input
with no `lastUpdateID`, `applyOnyxData` resolves immediately and the
finish-background-processing signal is sent zero times, not once. -/
theorem applyOnyxData_not_always_finishing :
    (applyOnyxData resolvingApplyEnv pendingNoLastUpdateIDData).countP
      ApplyEffect.isFinish ≠ 1 := by
  decide

/-- Claim C2 (amended): for every input whose required fields are
present — so that the reliable-update-application collaborator is
actually invoked — the finish-background-processing signal is sent
exactly once per call, on both success and failure of the
collaborator; on the abandoned missing-data paths it is not sent. -/
theorem applyOnyxData_finishes_once (env : ApplyEnv) (d : PushNotificationData)
    (h : updateApplierDataMissing d = false) :
    (applyOnyxData env d).countP ApplyEffect.isFinish = 1 := by
  unfold updateApplierDataMissing at h
  unfold applyOnyxData
  by_cases hp : d.hasPendingOnyxUpdates.getD false
  · rw [if_pos hp] at h
    simp only [hp, if_true, h, Bool.false_eq_true, if_false]
    exact applyUpdatesAndFinish_one_finish env _
  · rw [if_neg hp] at h
    simp only [hp, Bool.false_eq_true, if_false, h]
    exact applyUpdatesAndFinish_one_finish env _

/-- Witness for C2 (amended): a complete inline-data input, with a
resolving collaborator, produces exactly one finish signal. -/
theorem applyOnyxData_finishes_once_witness :
    updateApplierDataMissing completeInlineData = false ∧
    (applyOnyxData resolvingApplyEnv completeInlineData).countP ApplyEffect.isFinish = 1 :=
  ⟨by decide, applyOnyxData_finishes_once resolvingApplyEnv completeInlineData (by decide)⟩

/-- Claim C5: on a pending-updates input with no `lastUpdateID`, or an
inline-data input with `lastUpdateID`, `previousUpdateID` or `onyxData`
absent, `applyOnyxData` resolves with no effects at all — in
particular the reliable-update-application collaborator is never
invoked. -/
theorem applyOnyxData_missing_data_no_collaborator (env : ApplyEnv)
    (d : PushNotificationData)
    (h : (d.hasPendingOnyxUpdates.getD false = true ∧ d.lastUpdateID = none)
       ∨ (d.hasPendingOnyxUpdates.getD false = false ∧
           (d.lastUpdateID = none ∨ d.previousUpdateID = none ∨ d.onyxData = none))) :
    applyOnyxData env d = [] := by
  apply applyOnyxData_missing_eq_nil
  unfold updateApplierDataMissing
  rcases h with ⟨hp, hl⟩ | ⟨hp, hmiss⟩
  · simp [hp, hl, jsFalsyNum]
  · rcases hmiss with hm | hm | hm <;> simp [hp, hm, jsFalsyNum, jsFalsyArr]

/-- Witness for C5: the pending-updates input with no `lastUpdateID`
produces an empty effect trace. -/
theorem applyOnyxData_missing_data_no_collaborator_witness :
    applyOnyxData resolvingApplyEnv pendingNoLastUpdateIDData = [] :=
  applyOnyxData_missing_data_no_collaborator resolvingApplyEnv pendingNoLastUpdateIDData
    (Or.inl ⟨rfl, rfl⟩)

/-- Claim C7: when the SDK's currently registered identity equals the
desired notification ID converted to a string, `register` is a no-op
after the identity read: no permission request and no identify call is
issued. -/
theorem register_noop_when_already_registered
    (currentUserIdResult : Except Unit (Option String)) (notificationID : Int)
    (h : currentUserIdResult = Except.ok (some (toString notificationID))) :
    register currentUserIdResult notificationID = [RegisterCall.getNamedUserId] := by
  subst h
  unfold register
  simp

/-- Witness for C7: registering ID 42 when the SDK already holds the
string identity 42 issues only the identity read. -/
theorem register_noop_when_already_registered_witness :
    register (Except.ok (some "42")) 42 = [RegisterCall.getNamedUserId] :=
  register_noop_when_already_registered (Except.ok (some "42")) 42 rfl

/-- Claim C8: when the native bridge is absent, or present without the
`finishBackgroundProcessing` function, the safely-finish step resolves
successfully as a no-op without throwing. -/
theorem finish_noop_when_bridge_absent {P : Type}
    (bridge : Option (PushNotificationBridge P))
    (h : bridge = none ∨ ∃ b, bridge = some b ∧ b.finishBackgroundProcessing = none) :
    safelyFinishBackgroundProcessing bridge = FinishOutcome.resolvedNoop := by
  rcases h with h | ⟨b, hb, hf⟩
  · rw [h]; rfl
  · rw [hb]
    show (match b.finishBackgroundProcessing with
          | some finish => FinishOutcome.bridgeCall (finish ())
          | none => FinishOutcome.resolvedNoop) = FinishOutcome.resolvedNoop
    rw [hf]

/-- Witness for C8: an absent bridge yields the resolved no-op. -/
theorem finish_noop_when_bridge_absent_witness :
    safelyFinishBackgroundProcessing (none : Option (PushNotificationBridge Nat)) =
      FinishOutcome.resolvedNoop :=
  finish_noop_when_bridge_absent none (Or.inl rfl)

/-- Claim C9: for every navigation environment — including ones whose
guarded steps throw — and every input, `navigateToReport` returns an
already-resolved completion signal; the deferred routes-ready wait,
modal close and navigation steps never influence the returned promise,
so navigation errors can never reject it. -/
theorem navigateToReport_returns_resolved (env : NavEnv) (data : PushNotificationData) :
    (navigateToReport env data).1 = PromiseState.resolved := rfl

/-- Claim C10: a push payload whose `extras.payload` fails to decode is
shown, and a decoded payload of type `transaction` is shown
unconditionally. -/
theorem shouldShow_decode_failure_or_transaction (decEnv : DecodeEnv) (env : ShowEnv)
    (pushPayload : PushPayload)
    (h : parsePushNotificationPayload decEnv pushPayload.extras.payload = none
       ∨ ∃ data,
           parsePushNotificationPayload decEnv pushPayload.extras.payload = some data ∧
           data.type = some "transaction") :
    shouldShowPushNotification decEnv env pushPayload = true := by
  rcases h with h | ⟨data, hp, ht⟩
  · simp [shouldShowPushNotification, h]
  · simp [shouldShowPushNotification, hp, ht]

/-- Witness for C10: a transaction payload is shown even under an
environment that hides every report-action notification. -/
theorem shouldShow_decode_failure_or_transaction_witness :
    shouldShowPushNotification trivialDecodeEnv hidingShowEnv samplePayloadObj = true :=
  shouldShow_decode_failure_or_transaction trivialDecodeEnv hidingShowEnv samplePayloadObj
    (Or.inr ⟨sampleTransactionData, rfl, rfl⟩)
